import Mathlib

/-!
Verification development for the powertools event-handler validation sample.

The repository registers product CRUD routes on a validating router
(`legacy/lambda/handler.ts`), with zod schemas (`lambda/schemas.ts`).
The router itself (route matching, middleware chain, request/response
validation, error translation) is an external dependency whose behaviour
is described by the repository's spec, README notes and e2e tests; it is
modelled here from the spec.  Handlers, schemas, the route table and the
storage access patterns are translated directly from the source.
-/

namespace PowertoolsSample

/-- JSON values.  Numbers are rationals: every numeric literal appearing in
the source (prices, status codes) is exact, and the NaN produced by
`Number.parseFloat` on garbage input is modelled by `Option ℚ` at the only
place NaN can arise (see `parseFloat`). -/
inductive Json where
  | null : Json
  | bool : Bool → Json
  | num : ℚ → Json
  | str : String → Json
  | arr : List Json → Json
  | obj : List (String × Json) → Json

/-- One element of a zod issue path: an object key or an array index. -/
inductive PathElem where
  | key : String → PathElem
  | idx : Nat → PathElem
deriving DecidableEq, Repr

/-- A single zod validation issue: field path plus human-readable message
(messages follow zod v4 phrasing, which the repository's e2e test relies on
via `expect.stringContaining('Too small')`). -/
structure Issue where
  path : List PathElem
  message : String
deriving DecidableEq, Repr

/-- The scalar zod schemas used by `lambda/schemas.ts`:
`z.string()`, `z.string().min(n)`, `z.number()`, `z.number().positive()`,
`z.boolean()`. -/
inductive Leaf where
  | string : Leaf
  | stringMin : Nat → Leaf
  | number : Leaf
  | numberPositive : Leaf
  | boolean : Leaf
deriving DecidableEq, Repr

/-- An object field: optionality flag (`.optional()`) plus scalar schema. -/
structure Field where
  opt : Bool
  leaf : Leaf
deriving DecidableEq, Repr

/-- The schemas of `lambda/schemas.ts` are objects of scalar fields, or
arrays of such objects (`ProductListSchema`); this two-level shape covers
every schema the handlers declare. -/
inductive Schema where
  | obj : List (String × Field) → Schema
  | arrOf : List (String × Field) → Schema
deriving DecidableEq, Repr

/-- JS `typeof`-style name of a JSON value, used in zod v4 messages. -/
def jsTypeName : Json → String
  | .null => "null"
  | .bool _ => "boolean"
  | .num _ => "number"
  | .str _ => "string"
  | .arr _ => "array"
  | .obj _ => "object"

/-- Expected-type name of a scalar schema, for zod "received undefined"
messages. -/
def Leaf.typeName : Leaf → String
  | .string => "string"
  | .stringMin _ => "string"
  | .number => "number"
  | .numberPositive => "number"
  | .boolean => "boolean"

/-- zod scalar check.  Issues carry paths relative to the checked value
(the empty path); object/array parsing prepends the key or index. -/
def Leaf.check : Leaf → Json → Except (List Issue) Json
  | .string, .str s => .ok (.str s)
  | .string, v => .error [⟨[], "Invalid input: expected string, received " ++ jsTypeName v⟩]
  | .stringMin n, .str s =>
      if n ≤ s.length then .ok (.str s)
      else .error [⟨[], "Too small: expected string to have >=" ++ toString n ++ " characters"⟩]
  | .stringMin _, v => .error [⟨[], "Invalid input: expected string, received " ++ jsTypeName v⟩]
  | .number, .num q => .ok (.num q)
  | .number, v => .error [⟨[], "Invalid input: expected number, received " ++ jsTypeName v⟩]
  | .numberPositive, .num q =>
      if 0 < q then .ok (.num q)
      else .error [⟨[], "Too small: expected number to be >0"⟩]
  | .numberPositive, v => .error [⟨[], "Invalid input: expected number, received " ++ jsTypeName v⟩]
  | .boolean, .bool b => .ok (.bool b)
  | .boolean, v => .error [⟨[], "Invalid input: expected boolean, received " ++ jsTypeName v⟩]

/-- Check one declared field of a `z.object` against the raw key/value
list: a missing required key is an issue, a missing optional key is
skipped, a present key must pass its scalar check (issues get the key
prepended to their path, as zod does). -/
def checkField (kvs : List (String × Json)) (k : String) (f : Field) :
    Except (List Issue) (Option (String × Json)) :=
  match kvs.lookup k with
  | none =>
      if f.opt then .ok none
      else .error [⟨[.key k], "Invalid input: expected " ++ f.leaf.typeName ++ ", received undefined"⟩]
  | some v =>
      match f.leaf.check v with
      | .ok pv => .ok (some (k, pv))
      | .error iss => .error (iss.map (fun i => ⟨.key k :: i.path, i.message⟩))

/-- Issues of one field result (empty when the field passed). -/
def fieldIssues (r : Except (List Issue) (Option (String × Json))) : List Issue :=
  match r with
  | .error iss => iss
  | .ok _ => []

/-- Parsed key/value of one field result (none when optional-and-absent). -/
def fieldValue (r : Except (List Issue) (Option (String × Json))) : Option (String × Json) :=
  match r with
  | .ok v => v
  | .error _ => none

/-- `z.object` parse: every declared field is checked (all violations are
collected, not just the first, in declaration order), unknown keys are
stripped, and on success the parsed object lists the present declared
fields in schema declaration order -- zod's behaviour. -/
def parseObj (fields : List (String × Field)) (v : Json) : Except (List Issue) Json :=
  match v with
  | .obj kvs =>
      let results := fields.map (fun kf => checkField kvs kf.1 kf.2)
      let iss := results.foldr (fun r acc => fieldIssues r ++ acc) []
      if iss.isEmpty then .ok (.obj (results.filterMap fieldValue))
      else .error iss
  | _ => .error [⟨[], "Invalid input: expected object, received " ++ jsTypeName v⟩]

/-- `z.array(z.object ...)` element loop: collects the issues of every
element (index prepended to paths) together with the parsed elements. -/
def parseElems (fields : List (String × Field)) : Nat → List Json → List Issue × List Json
  | _, [] => ([], [])
  | i, x :: t =>
      let rest := parseElems fields (i + 1) t
      match parseObj fields x with
      | .ok y => (rest.1, y :: rest.2)
      | .error iss => (iss.map (fun e => ⟨.idx i :: e.path, e.message⟩) ++ rest.1, rest.2)

/-- Parse a value against a declared schema (`schema.parse` of zod,
wrapped by the router's schema validator). -/
def Schema.parse : Schema → Json → Except (List Issue) Json
  | .obj fields, v => parseObj fields v
  | .arrOf fields, .arr xs =>
      let r := parseElems fields 0 xs
      if r.1.isEmpty then .ok (.arr r.2) else .error r.1
  | .arrOf _, v => .error [⟨[], "Invalid input: expected array, received " ++ jsTypeName v⟩]

/-- `ProductSchema` of `lambda/schemas.ts`:
name string, description optional string, price positive number,
category string. -/
def ProductFields : List (String × Field) :=
  [("name", ⟨false, .string⟩),
   ("description", ⟨true, .string⟩),
   ("price", ⟨false, .numberPositive⟩),
   ("category", ⟨false, .string⟩)]

def ProductSchema : Schema := .obj ProductFields

/-- `ProductWithIdSchema = ProductSchema.extend({ id: z.string() })`:
zod's extend appends the new key after the base keys. -/
def ProductWithIdFields : List (String × Field) :=
  ProductFields ++ [("id", ⟨false, .string⟩)]

def ProductWithIdSchema : Schema := .obj ProductWithIdFields

/-- `ProductListSchema = z.array(ProductWithIdSchema)`. -/
def ProductListSchema : Schema := .arrOf ProductWithIdFields

/-- `ProductPathSchema = z.object({ id: z.string() })`. -/
def ProductPathSchema : Schema := .obj [("id", ⟨false, .string⟩)]

/-- `ApiKeyHeaderSchema = z.object({ 'x-api-key': z.string().min(1) })`. -/
def ApiKeyHeaderSchema : Schema := .obj [("x-api-key", ⟨false, .stringMin 1⟩)]

/-- `ProductQuerySchema`: three optional strings. -/
def ProductQuerySchema : Schema :=
  .obj [("category", ⟨true, .string⟩),
        ("minPrice", ⟨true, .string⟩),
        ("maxPrice", ⟨true, .string⟩)]

/-- Decimal digit run: value, number of digits consumed, rest. -/
def digitsVal : List Char → Nat × Nat × List Char
  | [] => (0, 0, [])
  | c :: t =>
      if c.isDigit then
        let r := digitsVal t
        ((c.toNat - 48) * 10 ^ r.2.1 + r.1, r.2.1 + 1, r.2.2)
      else (0, 0, c :: t)

/-- Signed exact value of a decimal literal `integer.fraction` with
`fracDigits` digits after the point. -/
def decimalVal (neg : Bool) (mantissa fracDigits : Nat) : ℚ :=
  Rat.divInt (if neg then -(mantissa : Int) else (mantissa : Int)) ((10 ^ fracDigits : Nat) : Int)

/-- `Number.parseFloat`: skips leading whitespace, reads an optional sign
and a decimal literal; `none` models NaN (no digits at the front).  The
exponent/`Infinity` forms of the full JS grammar are not exercised by the
repository and are not modelled. -/
def parseFloat (s : String) : Option ℚ :=
  let cs := s.data.dropWhile (fun c => c.isWhitespace)
  let sc : Bool × List Char :=
    match cs with
    | '-' :: t => (true, t)
    | '+' :: t => (false, t)
    | t => (false, t)
  let ip := digitsVal sc.2
  match ip.2.2 with
  | '.' :: t =>
      let fp := digitsVal t
      if ip.2.1 = 0 ∧ fp.2.1 = 0 then none
      else some (decimalVal sc.1 (ip.1 * 10 ^ fp.2.1 + fp.1) fp.2.1)
  | _ => if ip.2.1 = 0 then none else some (decimalVal sc.1 ip.1 0)

/-- Match a pattern at the front of a character list: the remainder after
the pattern, or `none`. -/
def dropLeading : List Char → List Char → Option (List Char)
  | [], t => some t
  | _, [] => none
  | p :: ps, c :: cs => if c == p then dropLeading ps cs else none

/-- Remove the first occurrence of `pat` from the character list. -/
def removeFirstAux (pat : List Char) : List Char → List Char
  | [] => []
  | c :: cs =>
      match dropLeading pat (c :: cs) with
      | some rest => rest
      | none => c :: removeFirstAux pat cs

/-- JS `s.replace(pat, '')` with a string pattern: removes the first
occurrence only (used as `pk.replace('PRODUCTS#', '')`). -/
def replaceFirst (s pat : String) : String :=
  if pat.data.isEmpty then s
  else String.mk (removeFirstAux pat.data s.data)

/-- Rendering of a JSON number (only integers are ever stringified by the
routes under study). -/
def stringifyNum (q : ℚ) : String :=
  if q.den = 1 then toString q.num else toString q.num ++ "/" ++ toString q.den

mutual

/-- `JSON.stringify` (object keys in insertion order; string escaping is
not needed by any value the handlers build). -/
def stringifyJson : Json → String
  | .null => "null"
  | .bool true => "true"
  | .bool false => "false"
  | .num q => stringifyNum q
  | .str s => "\"" ++ s ++ "\""
  | .arr xs => "[" ++ stringifyList xs ++ "]"
  | .obj kvs => "\x7b" ++ stringifyPairs kvs ++ "\x7d"

def stringifyList : List Json → String
  | [] => ""
  | [x] => stringifyJson x
  | x :: y :: t => stringifyJson x ++ "," ++ stringifyList (y :: t)

def stringifyPairs : List (String × Json) → String
  | [] => ""
  | [(k, v)] => "\"" ++ k ++ "\":" ++ stringifyJson v
  | (k, v) :: p :: t => "\"" ++ k ++ "\":" ++ stringifyJson v ++ "," ++ stringifyPairs (p :: t)

end

/-- String field of a JSON object (JS `obj.k` when the value is a string;
`none` models both a missing key and a non-string value, which JS strict
comparison against a string treats the same way). -/
def getStrField (j : Json) (k : String) : Option String :=
  match j with
  | .obj kvs =>
      match kvs.lookup k with
      | some (.str s) => some s
      | _ => none
  | _ => none

/-- Numeric field of a JSON object. -/
def getNumField (j : Json) (k : String) : Option ℚ :=
  match j with
  | .obj kvs =>
      match kvs.lookup k with
      | some (.num q) => some q
      | _ => none
  | _ => none

/-- JS `price >= bound` where either side may be NaN/undefined (`none`):
any comparison with NaN is false.  The bound is matched first so that a
NaN bound rejects every element definitionally. -/
def cmpGE (price bound : Option ℚ) : Bool :=
  match bound with
  | none => false
  | some b =>
      match price with
      | none => false
      | some p => decide (b ≤ p)

/-- JS `price <= bound`, NaN-rejecting as in `cmpGE`. -/
def cmpLE (price bound : Option ℚ) : Bool :=
  match bound with
  | none => false
  | some b =>
      match price with
      | none => false
      | some p => decide (p ≤ b)

/-- One record of the external key-value store: composite key
(`pk = "PRODUCTS#<id>"`, `sk = "PRODUCTS"`) plus the item's attributes. -/
structure StoredItem where
  pk : String
  sk : String
  attrs : List (String × Json)

/-- The storage collaborator, modelled as a plain list of items (the spec
places the persistence backend out of scope; `query`/`get`/`put`/`delete`
below are its four operations). -/
abbrev Store := List StoredItem

/-- `QueryCommand` on the inverted index with `sk = :sk`. -/
def queryBySk (store : Store) (sk : String) : List StoredItem :=
  store.filter (fun it => it.sk == sk)

/-- `GetCommand` with key `{pk, sk}`. -/
def getItem (store : Store) (pk sk : String) : Option StoredItem :=
  store.find? (fun it => it.pk == pk && it.sk == sk)

/-- `PutCommand`: replaces any item with the same key. -/
def putItem (store : Store) (it : StoredItem) : Store :=
  store.filter (fun x => !(x.pk == it.pk && x.sk == it.sk)) ++ [it]

/-- `DeleteCommand` with key `{pk, sk}`. -/
def deleteItem (store : Store) (pk sk : String) : Store :=
  store.filter (fun x => !(x.pk == pk && x.sk == sk))

/-- The HTTP-shaped inbound event: method, raw path, single-valued query
parameters, lower-cased headers, optional already-decoded JSON body. -/
structure Request where
  method : String
  path : String
  query : List (String × String)
  headers : List (String × String)
  body : Option Json

/-- The HTTP-shaped outbound response of one dispatch. -/
structure HttpResponse where
  status : Nat
  headers : List (String × String)
  body : Option Json

/-- Modelled from the spec: the per-invocation Request Context -- raw
request, captured path parameters, the evolving response, and the `valid`
container whose `req` slots are populated by validation middleware before
the handler runs and whose `res.body` slot is populated only after the
handler returns (option types force the presence check the spec asks for). -/
structure Ctx where
  req : Request
  pathParams : List (String × String)
  resStatus : Nat
  resHeaders : List (String × String)
  resBody : Option Json
  validReqPath : Option Json
  validReqQuery : Option Json
  validReqHeaders : Option Json
  validReqBody : Option Json
  validResBody : Option Json

/-- Fresh context at dispatch start. -/
def initCtx (req : Request) (ps : List (String × String)) : Ctx :=
  ⟨req, ps, 200, [], none, none, none, none, none, none⟩

/-- What a handler returns: a plain JSON value (defaulted to status 200 by
the router) or an explicit `Response` object (status and optional body
passed through). -/
inductive HandlerOutput where
  | json : Json → HandlerOutput
  | response : Nat → Option Json → HandlerOutput

/-- The only error kind the sample's handlers throw. -/
inductive HandlerErr where
  | notFoundE : String → HandlerErr

/-- A route handler: context, store and the `randomUUID` draw of this
invocation, returning output plus the possibly-updated store, or throwing. -/
abbrev Handler := Ctx → Store → String → Except HandlerErr (HandlerOutput × Store)

/-- Modelled from the spec: a user middleware unit.  `pre` runs before the
continuation and says whether `next()` is called (short-circuit when
false); `post` runs after the continuation returns.  The sample's one
middleware (`validResMiddleware`) fits this shape. -/
structure Mw where
  pre : Ctx → Ctx × Bool
  post : Ctx → Ctx

/-- Error kinds the router translates (spec section 4.6). -/
inductive RouterError where
  | reqValidation : List Issue → RouterError
  | resValidation : List Issue → RouterError
  | notFound : String → RouterError
  | routeMiss : RouterError
  | internal : RouterError

/-- Execution trace events, used to state the middleware-order invariants. -/
inductive Ev where
  | reqValidated : Ev
  | mwPre : Ev
  | handlerRun : Ev
  | resValidated : Ev
  | mwPost : Ev
deriving DecidableEq, Repr

/-- A path-pattern segment: literal or named capture (`/products/:id`). -/
inductive Seg where
  | lit : String → Seg
  | param : String → Seg

/-- Per-route validation configuration: optional schema per request part
(path, query, headers, body) and optional response-body schema. -/
structure ValidCfg where
  reqPath : Option Schema
  reqQuery : Option Schema
  reqHeaders : Option Schema
  reqBody : Option Schema
  resBody : Option Schema

/-- Whether any request part is declared for validation. -/
def hasReqVal (vc : ValidCfg) : Bool :=
  vc.reqPath.isSome || vc.reqQuery.isSome || vc.reqHeaders.isSome || vc.reqBody.isSome

/-- One registered route. -/
structure RouteDef where
  method : String
  pattern : List Seg
  mws : List Mw
  handler : Handler
  validation : Option ValidCfg

/-- Split a character list on `'/'` (always at least one segment). -/
def splitSegsAux : List Char → List String
  | [] => [""]
  | c :: t =>
      if c == '/' then "" :: splitSegsAux t
      else
        match splitSegsAux t with
        | [] => [String.mk [c]]
        | s :: rest => String.mk (c :: s.data) :: rest

/-- Split a request path into segments, dropping the leading empty
segment of the root slash. -/
def splitPath (p : String) : List String :=
  match p.data with
  | '/' :: t => splitSegsAux t
  | cs => splitSegsAux cs

/-- Modelled from the spec: segment-by-segment pattern match -- literal
segments compare exactly, named-parameter segments are accepted
unconditionally and captured by name. -/
def matchSegs : List Seg → List String → Option (List (String × String))
  | [], [] => some []
  | .lit s :: pt, seg :: rest => if seg == s then matchSegs pt rest else none
  | .param n :: pt, seg :: rest => (matchSegs pt rest).map (fun ps => (n, seg) :: ps)
  | _, _ => none

/-- Modelled from the spec: first matching route wins, exact method match
required, registration order is match priority. -/
def matchRoute (routes : List RouteDef) (req : Request) : Option (RouteDef × List (String × String)) :=
  match routes with
  | [] => none
  | r :: rest =>
      if r.method == req.method then
        match matchSegs r.pattern (splitPath req.path) with
        | some ps => some (r, ps)
        | none => matchRoute rest req
      else matchRoute rest req

/-- A string-keyed string-valued record (path params, query, headers) as
the JSON object zod validates. -/
def recordJson (l : List (String × String)) : Json :=
  .obj (l.map (fun p => (p.1, .str p.2)))

/-- Validate one declared request part: issues (empty on success) and the
parsed value. -/
def partIssues (os : Option Schema) (raw : Json) : List Issue × Option Json :=
  match os with
  | none => ([], none)
  | some s =>
      match s.parse raw with
      | .ok v => ([], some v)
      | .error iss => (iss, none)

/-- Modelled from the spec: request-side work of the validation
middleware -- each declared part is validated in declaration order (path,
query, headers, body), all issues of all failed parts are aggregated into
one error, and on success the parsed values populate `valid.req`. -/
def validateReq (vc : ValidCfg) (ctx : Ctx) : Except (List Issue) Ctx :=
  let p1 := partIssues vc.reqPath (recordJson ctx.pathParams)
  let p2 := partIssues vc.reqQuery (recordJson ctx.req.query)
  let p3 := partIssues vc.reqHeaders (recordJson ctx.req.headers)
  let p4 := partIssues vc.reqBody (ctx.req.body.getD .null)
  let iss := p1.1 ++ p2.1 ++ p3.1 ++ p4.1
  if iss.isEmpty then
    .ok { ctx with
          validReqPath := p1.2, validReqQuery := p2.2,
          validReqHeaders := p3.2, validReqBody := p4.2 }
  else .error iss

/-- Record the handler's output on the context: a plain value defaults to
status 200, an explicit `Response` carries its own status and body. -/
def setRes (ctx : Ctx) : HandlerOutput → Ctx
  | .json v => { ctx with resStatus := 200, resBody := some v }
  | .response st b => { ctx with resStatus := st, resBody := b }

/-- Modelled from the spec (response-validation placement per the
repository's README and the `res-body` e2e test: the validated response is
already available to user middleware after their `next()` call returns, so
response validation runs directly after the handler, before outer
middleware resume): run the handler, record its output, then validate the
response body when a response schema is declared, populating
`valid.res.body` on success and failing with a response-contract error
otherwise. -/
def runInner (handler : Handler) (resSchema : Option Schema) (uuid : String)
    (ctx : Ctx) (store : Store) : Except RouterError Ctx × Store × List Ev :=
  match handler ctx store uuid with
  | .error (.notFoundE m) => (.error (.notFound m), store, [.handlerRun])
  | .ok (out, store') =>
      match resSchema with
      | none => (.ok (setRes ctx out), store', [.handlerRun])
      | some s =>
          match s.parse ((setRes ctx out).resBody.getD .null) with
          | .error iss => (.error (.resValidation iss), store', [.handlerRun])
          | .ok pv =>
              (.ok { setRes ctx out with validResBody := some pv }, store',
               [.handlerRun, .resValidated])

/-- Modelled from the spec: the middleware chain executor.  Each unit's
`pre` runs, then (unless it short-circuits) the rest of the chain down to
the terminal continuation, then its `post`; thrown errors propagate
without running the unwinding units' `post`. -/
def runMws : List Mw → (Ctx → Store → Except RouterError Ctx × Store × List Ev) →
    Ctx → Store → Except RouterError Ctx × Store × List Ev
  | [], inner, ctx, store => inner ctx store
  | mw :: rest, inner, ctx, store =>
      if (mw.pre ctx).2 then
        match runMws rest inner (mw.pre ctx).1 store with
        | (.ok ctx₂, st, tr) => (.ok (mw.post ctx₂), st, .mwPre :: (tr ++ [.mwPost]))
        | (.error e, st, tr) => (.error e, st, .mwPre :: tr)
      else (.ok (mw.pre ctx).1, store, [.mwPre])

/-- Modelled from the spec: run one matched route -- request validation
first (short-circuiting with all aggregated issues before any user
middleware or the handler run), then the user middleware chain around the
handler and response validation. -/
def runRoute (r : RouteDef) (ctx : Ctx) (store : Store) (uuid : String) :
    Except RouterError Ctx × Store × List Ev :=
  match r.validation with
  | none => runMws r.mws (runInner r.handler none uuid) ctx store
  | some vc =>
      if hasReqVal vc then
        match validateReq vc ctx with
        | .error iss => (.error (.reqValidation iss), store, [])
        | .ok ctx' =>
            match runMws r.mws (runInner r.handler vc.resBody uuid) ctx' store with
            | (exc, st, tr) => (exc, st, .reqValidated :: tr)
      else runMws r.mws (runInner r.handler vc.resBody uuid) ctx store

/-- Issue as it appears in an error response body. -/
def issueJson (i : Issue) : Json :=
  .obj [("path", .arr (i.path.map (fun e =>
            match e with
            | .key s => .str s
            | .idx n => .num (n : ℚ)))),
        ("message", .str i.message)]

/-- Modelled from the spec: the error translator's mapping table
(section 4.6). -/
def translateErr : RouterError → HttpResponse
  | .reqValidation iss =>
      ⟨422, [], some (.obj [("error", .str "RequestValidationError"),
                            ("details", .obj [("issues", .arr (iss.map issueJson))])])⟩
  | .resValidation iss =>
      ⟨500, [], some (.obj [("error", .str "ResponseValidationError"),
                            ("details", .obj [("issues", .arr (iss.map issueJson))])])⟩
  | .notFound m =>
      ⟨404, [], some (.obj [("error", .str "NotFoundError"), ("details", .str m)])⟩
  | .routeMiss => ⟨404, [], some (.obj [("error", .str "NotFoundError")])⟩
  | .internal => ⟨500, [], some (.obj [("error", .str "InternalError")])⟩

/-- Read the final response off a successful context. -/
def serializeOk (ctx : Ctx) : HttpResponse :=
  ⟨ctx.resStatus, ctx.resHeaders, ctx.resBody⟩

/-- Serialize a chain outcome: success reads the context's response,
a thrown known error goes through the error translator. -/
def finishRoute : Except RouterError Ctx × Store × List Ev → HttpResponse × Store × List Ev
  | (.ok c, st, tr) => (serializeOk c, st, tr)
  | (.error e, st, tr) => (translateErr e, st, tr)

/-- The product list the `GET /products` handler builds from the store:
query all items with `sk = 'PRODUCTS'`, strip the key prefix into `id`,
spread the remaining attributes (`{ id, ...product }`). -/
def productsFromStore (store : Store) : List Json :=
  (queryBySk store "PRODUCTS").map (fun it =>
    .obj (("id", .str (replaceFirst it.pk "PRODUCTS#")) :: it.attrs))

/-- Body of the `GET /products` handler after the store query: the three
truthiness-guarded filters over category / minPrice / maxPrice, with
`Number.parseFloat` applied to the price bounds inside the filters. -/
def productsResult (q : Json) (store : Store) : List Json :=
  let category := getStrField q "category"
  let minPrice := getStrField q "minPrice"
  let maxPrice := getStrField q "maxPrice"
  let products := productsFromStore store
  let products :=
    match category with
    | some c =>
        if c != "" then products.filter (fun p => getStrField p "category" == some c)
        else products
    | none => products
  let products :=
    match minPrice with
    | some m =>
        if m != "" then products.filter (fun p => cmpGE (getNumField p "price") (parseFloat m))
        else products
    | none => products
  let products :=
    match maxPrice with
    | some m =>
        if m != "" then products.filter (fun p => cmpLE (getNumField p "price") (parseFloat m))
        else products
    | none => products
  products

/-- `app.get('/products')` handler. -/
def getProductsHandler : Handler := fun ctx store _uuid =>
  .ok (.json (.arr (productsResult (ctx.validReqQuery.getD (.obj [])) store)), store)

/-- `app.get('/products/:id')` handler: `GetCommand` on the composite key,
`NotFoundError` when the item is missing, else `{ id, ...product }`. -/
def getProductByIdHandler : Handler := fun ctx store _uuid =>
  let id := (getStrField (ctx.validReqPath.getD (.obj [])) "id").getD ""
  match getItem store ("PRODUCTS#" ++ id) "PRODUCTS" with
  | none => .error (.notFoundE "Product not found")
  | some it => .ok (.json (.obj (("id", .str id) :: it.attrs)), store)

/-- `app.get('/product-invalid')` handler: returns a product without an
`id` under a response schema that requires one. -/
def productInvalidHandler : Handler := fun _ctx store _uuid =>
  .ok (.json (.obj [("name", .str "Test"), ("price", .num 10), ("category", .str "Test")]), store)

/-- `app.get('/res-body')` handler. -/
def resBodyHandler : Handler := fun _ctx store _uuid =>
  .ok (.json (.obj [("hasResBody", .bool true)]), store)

/-- `app.get('/product-valid')` handler. -/
def productValidHandler : Handler := fun _ctx store _uuid =>
  .ok (.json (.obj [("id", .str "1234"), ("name", .str "Test"),
                    ("price", .num 10), ("category", .str "Test")]), store)

/-- `app.get('/protected')` handler: echoes the validated header. -/
def protectedHandler : Handler := fun ctx store _uuid =>
  let apiKey := (getStrField (ctx.validReqHeaders.getD (.obj [])) "x-api-key").getD ""
  .ok (.json (.obj [("message", .str ("Authenticated with " ++ apiKey))]), store)

/-- `app.post('/products')` handler: fresh `randomUUID`, `PutCommand` of
`{ pk, sk, ...product }`, response `{ id, ...product }`. -/
def postProductsHandler : Handler := fun ctx store uuid =>
  let fields :=
    match ctx.validReqBody.getD (.obj []) with
    | .obj kvs => kvs
    | _ => []
  .ok (.json (.obj (("id", .str uuid) :: fields)),
      putItem store ⟨"PRODUCTS#" ++ uuid, "PRODUCTS", fields⟩)

/-- `app.delete('/products/:id')` handler: unconditional `DeleteCommand`,
then an explicit `new Response(null, { status: 204 })`. -/
def deleteProductHandler : Handler := fun ctx store _uuid =>
  let id := (getStrField (ctx.validReqPath.getD (.obj [])) "id").getD ""
  .ok (.response 204 none, deleteItem store ("PRODUCTS#" ++ id) "PRODUCTS")

/-- `headers.set`: replace-or-append semantics of the Fetch `Headers` map. -/
def setHeader (hs : List (String × String)) (k v : String) : List (String × String) :=
  hs.filter (fun p => p.1 != k) ++ [(k, v)]

/-- `validResMiddleware` of `handler.ts`: awaits `next()`, then reads
`reqCtx.valid.res.body` and stores its `JSON.stringify` in the `x-exists`
response header.  (`valid.res.body` is populated by response validation
before this post-step runs; the absent case cannot be reached on the
route that declares this middleware.) -/
def validResMiddleware : Mw :=
  ⟨fun ctx => (ctx, true),
   fun ctx =>
     match ctx.validResBody with
     | some b => { ctx with resHeaders := setHeader ctx.resHeaders "x-exists" (stringifyJson b) }
     | none => ctx⟩

/-- `z.object({ hasResBody: z.boolean() })` declared inline on `/res-body`. -/
def ResBodySchema : Schema := .obj [("hasResBody", ⟨false, .boolean⟩)]

def productsRoute : RouteDef :=
  ⟨"GET", [.lit "products"], [], getProductsHandler,
   some ⟨none, some ProductQuerySchema, none, none, some ProductListSchema⟩⟩

def productByIdRoute : RouteDef :=
  ⟨"GET", [.lit "products", .param "id"], [], getProductByIdHandler,
   some ⟨some ProductPathSchema, none, none, none, some ProductWithIdSchema⟩⟩

def productInvalidRoute : RouteDef :=
  ⟨"GET", [.lit "product-invalid"], [], productInvalidHandler,
   some ⟨none, none, none, none, some ProductWithIdSchema⟩⟩

def resBodyRoute : RouteDef :=
  ⟨"GET", [.lit "res-body"], [validResMiddleware], resBodyHandler,
   some ⟨none, none, none, none, some ResBodySchema⟩⟩

def productValidRoute : RouteDef :=
  ⟨"GET", [.lit "product-valid"], [], productValidHandler,
   some ⟨none, none, none, none, some ProductWithIdSchema⟩⟩

def protectedRoute : RouteDef :=
  ⟨"GET", [.lit "protected"], [], protectedHandler,
   some ⟨none, none, some ApiKeyHeaderSchema, none, none⟩⟩

def postProductsRoute : RouteDef :=
  ⟨"POST", [.lit "products"], [], postProductsHandler,
   some ⟨none, none, none, some ProductSchema, some ProductWithIdSchema⟩⟩

def deleteProductRoute : RouteDef :=
  ⟨"DELETE", [.lit "products", .param "id"], [], deleteProductHandler,
   some ⟨some ProductPathSchema, none, none, none, none⟩⟩

/-- The route table of `handler.ts`, in registration order. -/
def appRoutes : List RouteDef :=
  [productsRoute, productByIdRoute, productInvalidRoute, resBodyRoute,
   productValidRoute, protectedRoute, postProductsRoute, deleteProductRoute]

/-- `app.resolve`: match, build the context, run the route, serialize.
Returns the response together with the resulting store and the execution
trace. -/
def dispatch (req : Request) (store : Store) (uuid : String) :
    HttpResponse × Store × List Ev :=
  match matchRoute appRoutes req with
  | none => (translateErr .routeMiss, store, [])
  | some (r, ps) => finishRoute (runRoute r (initCtx req ps) store uuid)

/-- Request carrying the invalid product body of e2e scenario 1. -/
def postBadProductReq : Request :=
  ⟨"POST", "/products", [], [],
   some (.obj [("name", .str "Test Product"), ("price", .num (-10)), ("category", .str "Test")])⟩

def productInvalidReq : Request := ⟨"GET", "/product-invalid", [], [], none⟩

def resBodyReq : Request := ⟨"GET", "/res-body", [], [], none⟩

def protectedNoKeyReq : Request := ⟨"GET", "/protected", [], [], none⟩

/-- GET /protected carrying an `x-api-key` header with value `k`. -/
def protectedReq (k : String) : Request :=
  ⟨"GET", "/protected", [], [("x-api-key", k)], none⟩

/-- GET /products with the given query parameters. -/
def productsReq (q : List (String × String)) : Request :=
  ⟨"GET", "/products", q, [], none⟩

/-- POST /products with the given JSON body. -/
def postProductReq (b : Json) : Request := ⟨"POST", "/products", [], [], some b⟩

/-- GET of an arbitrary path (used for the /products/:id route). -/
def getReq (p : String) : Request := ⟨"GET", p, [], [], none⟩

/-- DELETE of an arbitrary path. -/
def deleteReq (p : String) : Request := ⟨"DELETE", p, [], [], none⟩

/-- Success of a schema parse, as a boolean. -/
def parseOk (r : Except (List Issue) Json) : Bool :=
  match r with
  | .ok _ => true
  | .error _ => false

/-- A store whose listed products all satisfy `ProductWithIdSchema`
(what response validation of the collection route requires). -/
def wfStore (store : Store) : Bool :=
  (productsFromStore store).all (fun p => parseOk (parseObj ProductWithIdFields p))

/-- Trace well-formedness inside the user-middleware chain: no
request-validation event at all, and no response-validation event before
the handler has run. -/
def innerOK (t : List Ev) : Bool :=
  t.all (fun e => e != Ev.reqValidated) &&
  (t.takeWhile (fun e => e != Ev.handlerRun)).all (fun e => e != Ev.resValidated)

/-- The middleware-order invariant on a full dispatch trace: request
validation (when it happens) is the very first event, and response
validation never precedes the handler. -/
def orderedTrace (t : List Ev) : Bool :=
  (t.drop 1).all (fun e => e != Ev.reqValidated) &&
  (t.takeWhile (fun e => e != Ev.handlerRun)).all (fun e => e != Ev.resValidated)

/-- The `id` field of a response body, used to exhibit that two POST
responses differ. -/
def bodyIdOf (r : HttpResponse) : Option String :=
  match r.body with
  | some j => getStrField j "id"
  | none => none

/-- Length of an array response body (0 when not an array). -/
def bodyArrLen (r : HttpResponse) : Nat :=
  match r.body with
  | some (.arr xs) => xs.length
  | _ => 0

/-- A schema-valid product body. -/
def goodBody : Json := .obj [("name", .str "A"), ("price", .num 1), ("category", .str "B")]

/-- The body the `/product-invalid` handler returns (no `id`). -/
def invalidProductBody : Json :=
  .obj [("name", .str "Test"), ("price", .num 10), ("category", .str "Test")]

/-- Store holding one Furniture item. -/
def furnitureStore : Store :=
  [⟨"PRODUCTS#f1", "PRODUCTS",
    [("name", .str "Cheap Furniture"), ("price", .num 25), ("category", .str "Furniture")]⟩]

/-- Store of e2e scenario 3: two Electronics items and one Furniture item. -/
def electronicsStore : Store :=
  [⟨"PRODUCTS#e1", "PRODUCTS",
    [("name", .str "Cheap Electronics"), ("price", .num 15), ("category", .str "Electronics")]⟩,
   ⟨"PRODUCTS#e2", "PRODUCTS",
    [("name", .str "Expensive Electronics"), ("price", .num 150), ("category", .str "Electronics")]⟩,
   ⟨"PRODUCTS#f1", "PRODUCTS",
    [("name", .str "Cheap Furniture"), ("price", .num 25), ("category", .str "Furniture")]⟩]

/-- The two Electronics items of `electronicsStore` as the collection
handler renders them. -/
def cheapElectronicsJson : Json :=
  .obj [("id", .str "e1"), ("name", .str "Cheap Electronics"),
        ("price", .num 15), ("category", .str "Electronics")]

def expensiveElectronicsJson : Json :=
  .obj [("id", .str "e2"), ("name", .str "Expensive Electronics"),
        ("price", .num 150), ("category", .str "Electronics")]

/-! ## Helper lemmas about the pipeline -/

theorem takeWhile_all_append_one {p q : Ev → Bool} (l : List Ev) (x : Ev) (hq : q x = true)
    (h : (l.takeWhile p).all q = true) : ((l ++ [x]).takeWhile p).all q = true := by
  induction l with
  | nil =>
      simp only [List.nil_append]
      cases hp : p x <;> simp [List.takeWhile_cons, hp, hq]
  | cons a t ih =>
      cases hp : p a with
      | false => simp [List.takeWhile_cons, hp]
      | true =>
          simp only [List.takeWhile_cons, hp, if_true, List.cons_append,
            List.all_cons, Bool.and_eq_true] at h ⊢
          exact ⟨h.1, ih h.2⟩

theorem innerOK_cons_mwPre (t : List Ev) (h : innerOK t = true) :
    innerOK (.mwPre :: t) = true := by
  unfold innerOK at h ⊢
  simp only [Bool.and_eq_true] at h ⊢
  constructor
  · simp [h.1]
  · rw [List.takeWhile_cons]
    simp [h.2]

theorem innerOK_wrap (t : List Ev) (h : innerOK t = true) :
    innerOK (.mwPre :: (t ++ [.mwPost])) = true := by
  unfold innerOK at h ⊢
  simp only [Bool.and_eq_true] at h ⊢
  constructor
  · simp [h.1]
  · rw [List.takeWhile_cons]
    simp only [show ((Ev.mwPre != Ev.handlerRun) = true) from rfl, if_true,
      List.all_cons, Bool.and_eq_true]
    exact ⟨rfl, takeWhile_all_append_one t .mwPost rfl h.2⟩

theorem innerOK_runInner (h : Handler) (os : Option Schema) (u : String) (c : Ctx) (st : Store) :
    innerOK (runInner h os u c st).2.2 = true := by
  unfold runInner
  cases hh : h c st u with
  | error e => cases e with | notFoundE m => rfl
  | ok pr =>
      obtain ⟨out, store'⟩ := pr
      dsimp only
      cases os with
      | none => rfl
      | some s =>
          dsimp only
          cases hp : s.parse ((setRes c out).resBody.getD .null) with
          | error iss => rfl
          | ok pv => rfl

theorem innerOK_runMws (mws : List Mw)
    (inner : Ctx → Store → Except RouterError Ctx × Store × List Ev)
    (hinner : ∀ c' st', innerOK (inner c' st').2.2 = true) :
    ∀ c st, innerOK (runMws mws inner c st).2.2 = true := by
  induction mws with
  | nil => intro c st; exact hinner c st
  | cons mw rest ih =>
      intro c st
      unfold runMws
      cases hb : (mw.pre c).2 with
      | false => simp [hb]; rfl
      | true =>
          simp only [hb, if_true]
          rcases hr : runMws rest inner (mw.pre c).1 st with ⟨exc, st2, tr⟩
          have htr : innerOK tr = true := by
            have := ih (mw.pre c).1 st
            rw [hr] at this
            exact this
          cases exc with
          | ok c2 => exact innerOK_wrap tr htr
          | error e => exact innerOK_cons_mwPre tr htr

theorem orderedTrace_of_innerOK (t : List Ev) (h : innerOK t = true) :
    orderedTrace t = true := by
  unfold innerOK at h
  unfold orderedTrace
  simp only [Bool.and_eq_true] at h ⊢
  refine ⟨?_, h.2⟩
  rw [List.all_eq_true] at h ⊢
  intro x hx
  exact h.1 x (List.mem_of_mem_drop hx)

theorem orderedTrace_cons_reqVal (t : List Ev) (h : innerOK t = true) :
    orderedTrace (.reqValidated :: t) = true := by
  unfold innerOK at h
  unfold orderedTrace
  simp only [Bool.and_eq_true] at h ⊢
  constructor
  · simpa using h.1
  · rw [List.takeWhile_cons]
    simp only [show ((Ev.reqValidated != Ev.handlerRun) = true) from rfl, if_true,
      List.all_cons, Bool.and_eq_true]
    exact ⟨rfl, h.2⟩

theorem orderedTrace_runRoute (r : RouteDef) (ctx : Ctx) (store : Store) (uuid : String) :
    orderedTrace (runRoute r ctx store uuid).2.2 = true := by
  unfold runRoute
  cases r.validation with
  | none =>
      exact orderedTrace_of_innerOK _
        (innerOK_runMws r.mws _ (fun c st => innerOK_runInner r.handler none uuid c st) ctx store)
  | some vc =>
      dsimp only
      cases hq : hasReqVal vc with
      | false =>
          simp only [hq, Bool.false_eq_true, if_false]
          exact orderedTrace_of_innerOK _
            (innerOK_runMws r.mws _
              (fun c st => innerOK_runInner r.handler vc.resBody uuid c st) ctx store)
      | true =>
          simp only [hq, if_true]
          cases hv : validateReq vc ctx with
          | error iss => rfl
          | ok ctx' =>
              dsimp only
              exact orderedTrace_cons_reqVal _
                (innerOK_runMws r.mws _
                  (fun c st => innerOK_runInner r.handler vc.resBody uuid c st) ctx' store)

theorem orderedTrace_dispatch (req : Request) (store : Store) (uuid : String) :
    orderedTrace (dispatch req store uuid).2.2 = true := by
  unfold dispatch
  cases hm : matchRoute appRoutes req with
  | none => rfl
  | some pr =>
      obtain ⟨r, ps⟩ := pr
      dsimp only
      rcases hr : runRoute r (initCtx req ps) store uuid with ⟨exc, st, tr⟩
      have htr := orderedTrace_runRoute r (initCtx req ps) store uuid
      rw [hr] at htr
      cases exc <;> simpa [finishRoute] using htr

theorem runMws_propagates (mws : List Mw)
    (inner : Ctx → Store → Except RouterError Ctx × Store × List Ev)
    (hpre : ∀ mw ∈ mws, ∀ c, (mw.pre c).2 = true)
    (hinner : ∀ c st, ∃ iss st' tr, inner c st = (.error (.resValidation iss), st', tr)) :
    ∀ ctx store, ∃ iss st' tr,
      runMws mws inner ctx store = (.error (.resValidation iss), st', tr) := by
  induction mws with
  | nil => intro ctx store; exact hinner ctx store
  | cons mw rest ih =>
      intro ctx store
      unfold runMws
      have hb := hpre mw (List.mem_cons_self mw rest) ctx
      simp only [hb, if_true]
      rcases ih (fun m hm => hpre m (List.mem_cons_of_mem mw hm)) (mw.pre ctx).1 store
        with ⟨iss, st', tr, hr⟩
      rw [hr]
      exact ⟨iss, st', .mwPre :: tr, rfl⟩

theorem runInner_fails (h : Handler) (s : Schema) (uuid : String)
    (hh : ∀ c st, ∃ v st', h c st uuid = .ok (.json v, st') ∧ ∃ iss, s.parse v = .error iss) :
    ∀ c st, ∃ iss st' tr,
      runInner h (some s) uuid c st = (.error (.resValidation iss), st', tr) := by
  intro c st
  rcases hh c st with ⟨v, st', hv, iss, hp⟩
  unfold runInner
  rw [hv]
  dsimp only
  have hbody : (setRes c (.json v)).resBody.getD .null = v := by simp [setRes]
  rw [hbody, hp]
  exact ⟨iss, st', [.handlerRun], rfl⟩

theorem resContract_500 (r : RouteDef) (vc : ValidCfg) (s : Schema) (ctx : Ctx)
    (store : Store) (uuid : String)
    (hval : r.validation = some vc) (hres : vc.resBody = some s)
    (hpre : ∀ mw ∈ r.mws, ∀ c, (mw.pre c).2 = true)
    (hh : ∀ c st, ∃ v st', r.handler c st uuid = .ok (.json v, st') ∧ ∃ iss, s.parse v = .error iss)
    (hreq : hasReqVal vc = false ∨ ∃ c', validateReq vc ctx = .ok c') :
    (finishRoute (runRoute r ctx store uuid)).1.status = 500 := by
  have hfail := runInner_fails r.handler s uuid hh
  have hfail' : ∀ c st, ∃ iss st' tr,
      runInner r.handler vc.resBody uuid c st = (.error (.resValidation iss), st', tr) := by
    rw [hres]; exact hfail
  unfold runRoute
  rw [hval]
  dsimp only
  rcases hreq with hno | ⟨c', hv⟩
  · simp only [hno, Bool.false_eq_true, if_false]
    rcases runMws_propagates r.mws _ hpre hfail' ctx store with ⟨iss, st', tr, hr⟩
    rw [hr]
    rfl
  · cases hq : hasReqVal vc with
    | false =>
        simp only [Bool.false_eq_true, if_false]
        rcases runMws_propagates r.mws _ hpre hfail' ctx store with ⟨iss, st', tr, hr⟩
        rw [hr]
        rfl
    | true =>
        simp only [if_true]
        rw [hv]
        dsimp only
        rcases runMws_propagates r.mws _ hpre hfail' c' store with ⟨iss, st', tr, hr⟩
        rw [hr]
        rfl

theorem matchRoute_mem (routes : List RouteDef) (req : Request)
    (pr : RouteDef × List (String × String)) (h : matchRoute routes req = some pr) :
    pr.1 ∈ routes ∧ (pr.1.method == req.method) = true := by
  induction routes with
  | nil => simp [matchRoute] at h
  | cons r rest ih =>
      unfold matchRoute at h
      cases hb : (r.method == req.method) with
      | false =>
          rw [hb] at h
          simp only [Bool.false_eq_true, if_false] at h
          rcases ih h with ⟨hm, he⟩
          exact ⟨List.mem_cons_of_mem r hm, he⟩
      | true =>
          rw [hb] at h
          simp only [if_true] at h
          cases hs : matchSegs r.pattern (splitPath req.path) with
          | some ps =>
              rw [hs] at h
              dsimp only at h
              cases h
              exact ⟨List.mem_cons_self r rest, hb⟩
          | none =>
              rw [hs] at h
              dsimp only at h
              rcases ih h with ⟨hm, he⟩
              exact ⟨List.mem_cons_of_mem r hm, he⟩

theorem runInner_uuid_irrel (h : Handler) (os : Option Schema) (u u' : String)
    (hu : ∀ c st, h c st u = h c st u') :
    runInner h os u = runInner h os u' := by
  funext c st
  unfold runInner
  rw [hu]

theorem runRoute_uuid_irrel (r : RouteDef) (u u' : String)
    (hu : ∀ c st, r.handler c st u = r.handler c st u') (ctx : Ctx) (store : Store) :
    runRoute r ctx store u = runRoute r ctx store u' := by
  unfold runRoute
  cases r.validation with
  | none => rw [runInner_uuid_irrel r.handler none u u' hu]
  | some vc =>
      dsimp only
      rw [runInner_uuid_irrel r.handler vc.resBody u u' hu]

theorem dispatch_uuid_irrel (req : Request) (store : Store) (u u' : String)
    (hm : req.method ≠ "POST") :
    dispatch req store u = dispatch req store u' := by
  unfold dispatch
  cases hmr : matchRoute appRoutes req with
  | none => rfl
  | some pr =>
      obtain ⟨r, ps⟩ := pr
      dsimp only
      rcases matchRoute_mem appRoutes req (r, ps) hmr with ⟨hmem, hbeq⟩
      have hrm : r.method ≠ "POST" := by
        intro hp
        have he : r.method = req.method := by simpa using hbeq
        rw [hp] at he
        exact hm he.symm
      have hirr : ∀ (uu uu' : String), (∀ c st, r.handler c st uu = r.handler c st uu') →
          runRoute r (initCtx req ps) store uu = runRoute r (initCtx req ps) store uu' :=
        fun uu uu' hh => runRoute_uuid_irrel r uu uu' hh (initCtx req ps) store
      simp only [appRoutes, List.mem_cons, List.not_mem_nil, or_false] at hmem
      rcases hmem with h | h | h | h | h | h | h | h
      · subst h; rw [hirr u u' (fun c st => rfl)]
      · subst h; rw [hirr u u' (fun c st => rfl)]
      · subst h; rw [hirr u u' (fun c st => rfl)]
      · subst h; rw [hirr u u' (fun c st => rfl)]
      · subst h; rw [hirr u u' (fun c st => rfl)]
      · subst h; rw [hirr u u' (fun c st => rfl)]
      · subst h; exact absurd rfl hrm
      · subst h; rw [hirr u u' (fun c st => rfl)]

theorem runRoute_json_resOk (vc : ValidCfg) (h : Handler) (m : String) (pat : List Seg)
    (ctx ctx' : Ctx) (store store' : Store) (uuid : String) (v y : Json) (s : Schema)
    (hreq : hasReqVal vc = true) (hv : validateReq vc ctx = .ok ctx')
    (hh : h ctx' store uuid = .ok (.json v, store')) (hres : vc.resBody = some s)
    (hp : s.parse v = .ok y) :
    runRoute ⟨m, pat, [], h, some vc⟩ ctx store uuid =
      (.ok { ctx' with resStatus := 200, resBody := some v, validResBody := some y },
       store', [.reqValidated, .handlerRun, .resValidated]) := by
  simp [runRoute, hreq, hv, runMws, runInner, hh, hres, setRes, hp]

theorem parseElems_issues_nil (F : List (String × Field)) (l : List Json)
    (h : ∀ x ∈ l, parseOk (parseObj F x) = true) :
    ∀ i, (parseElems F i l).1 = [] := by
  induction l with
  | nil => intro i; simp [parseElems]
  | cons x t ih =>
      intro i
      have hx := h x (List.mem_cons_self x t)
      have ht := fun z hz => h z (List.mem_cons_of_mem x hz)
      cases hpx : parseObj F x with
      | ok y => simp [parseElems, hpx, ih ht (i + 1)]
      | error iss => rw [hpx] at hx; simp [parseOk] at hx

theorem parse_list_ok (F : List (String × Field)) (l : List Json)
    (h : l.all (fun x => parseOk (parseObj F x)) = true) :
    Schema.parse (.arrOf F) (.arr l) = .ok (.arr (parseElems F 0 l).2) := by
  have h' : ∀ x ∈ l, parseOk (parseObj F x) = true := by
    intro x hx; exact (List.all_eq_true.mp h) x hx
  have hnil := parseElems_issues_nil F l h' 0
  simp [Schema.parse, hnil]

theorem all_of_filter {p q : Json → Bool} (l : List Json) (h : l.all q = true) :
    (l.filter p).all q = true := by
  rw [List.all_eq_true] at h ⊢
  intro x hx
  exact h x (List.mem_of_mem_filter hx)

theorem products_dispatch (Q : List (String × String)) (qv : Json) (store : Store)
    (uuid : String) (ys : List Json)
    (hq : Schema.parse ProductQuerySchema (recordJson Q) = .ok qv)
    (hres : Schema.parse ProductListSchema (.arr (productsResult qv store)) = .ok (.arr ys)) :
    dispatch (productsReq Q) store uuid =
      (⟨200, [], some (.arr (productsResult qv store))⟩, store,
       [.reqValidated, .handlerRun, .resValidated]) := by
  have hm : matchRoute appRoutes (productsReq Q) = some (productsRoute, []) := rfl
  have hv : validateReq ⟨none, some ProductQuerySchema, none, none, some ProductListSchema⟩
      (initCtx (productsReq Q) []) =
      .ok ⟨productsReq Q, [], 200, [], none, none, some qv, none, none, none⟩ := by
    simp [validateReq, partIssues, initCtx, productsReq, hq]
  have hh : getProductsHandler ⟨productsReq Q, [], 200, [], none, none, some qv, none, none, none⟩
      store uuid = .ok (.json (.arr (productsResult qv store)), store) := by
    simp [getProductsHandler]
  have hr := runRoute_json_resOk
    ⟨none, some ProductQuerySchema, none, none, some ProductListSchema⟩
    getProductsHandler "GET" [.lit "products"]
    (initCtx (productsReq Q) [])
    ⟨productsReq Q, [], 200, [], none, none, some qv, none, none, none⟩
    store store uuid (.arr (productsResult qv store)) (.arr ys) ProductListSchema
    rfl hv hh rfl hres
  simp only [dispatch, hm, productsRoute]
  rw [hr]
  simp [finishRoute, serializeOk]

/-! ## The claims -/

/-- C1: dispatching POST /products with the body
`{name:"Test Product", price:-10, category:"Test"}` yields status 422 with
body error `RequestValidationError` and exactly one issue, whose path is
`["price"]` (one entry per violated field); the handler never runs and the
store is untouched. -/
theorem post_invalid_price_422 (store : Store) (uuid : String) :
    dispatch postBadProductReq store uuid =
      (⟨422, [],
        some (.obj [("error", .str "RequestValidationError"),
                    ("details", .obj [("issues",
                      .arr [.obj [("path", .arr [.str "price"]),
                                  ("message", .str "Too small: expected number to be >0")]])])])⟩,
       store, [])
    ∧ Ev.handlerRun ∉ (dispatch postBadProductReq store uuid).2.2 := by
  constructor
  · rfl
  · rw [show (dispatch postBadProductReq store uuid).2.2 = ([] : List Ev) from rfl]
    exact List.not_mem_nil _

/-- C2: for every route with response validation whose middleware all call
`next()` and whose handler returns a JSON body failing the declared
response schema, the dispatched response has status 500 and never 200; in
particular GET /product-invalid always yields 500, not 200. -/
theorem res_contract_always_500 :
    (∀ (r : RouteDef) (vc : ValidCfg) (s : Schema) (ctx : Ctx) (store : Store) (uuid : String),
      r.validation = some vc → vc.resBody = some s →
      (∀ mw ∈ r.mws, ∀ c, (mw.pre c).2 = true) →
      (∀ c st, ∃ v st', r.handler c st uuid = .ok (.json v, st') ∧
        ∃ iss, s.parse v = .error iss) →
      (hasReqVal vc = false ∨ ∃ c', validateReq vc ctx = .ok c') →
      (finishRoute (runRoute r ctx store uuid)).1.status = 500 ∧
        (finishRoute (runRoute r ctx store uuid)).1.status ≠ 200)
    ∧ (∀ (store : Store) (uuid : String),
        (dispatch productInvalidReq store uuid).1.status = 500 ∧
          (dispatch productInvalidReq store uuid).1.status ≠ 200) := by
  constructor
  · intro r vc s ctx store uuid hval hres hpre hh hreq
    have h500 := resContract_500 r vc s ctx store uuid hval hres hpre hh hreq
    exact ⟨h500, by rw [h500]; decide⟩
  · intro store uuid
    exact ⟨rfl, by rw [show (dispatch productInvalidReq store uuid).1.status = 500 from rfl]; decide⟩

/-- C2 witness: the general response-contract theorem applied to the
concrete /product-invalid route, whose handler always returns a product
without an `id` under `ProductWithIdSchema`. -/
theorem res_contract_always_500_witness :
    (finishRoute (runRoute productInvalidRoute (initCtx productInvalidReq []) [] "u")).1.status = 500 ∧
      (finishRoute (runRoute productInvalidRoute (initCtx productInvalidReq []) [] "u")).1.status ≠ 200 :=
  res_contract_always_500.1 productInvalidRoute
    ⟨none, none, none, none, some ProductWithIdSchema⟩ ProductWithIdSchema
    (initCtx productInvalidReq []) [] "u" rfl rfl
    (fun mw hmw => absurd hmw (List.not_mem_nil mw))
    (fun _c st => ⟨invalidProductBody, st, rfl,
      [⟨[.key "id"], "Invalid input: expected string, received undefined"⟩], rfl⟩)
    (Or.inl rfl)

/-- C3: on every dispatch, request validation (when configured) is the
first event of the execution trace -- strictly before any user middleware
and before the handler -- and response-body validation never precedes the
handler's run; consequently GET /res-body answers 200 with body
`{hasResBody:true}` and header `x-exists` holding its JSON serialization,
set by middleware that reads `valid.res.body` after `next()`. -/
theorem validation_order_and_res_body :
    (∀ (req : Request) (store : Store) (uuid : String),
      orderedTrace (dispatch req store uuid).2.2 = true)
    ∧ (∀ (store : Store) (uuid : String),
        dispatch resBodyReq store uuid =
          (⟨200, [("x-exists", "\x7b\"hasResBody\":true\x7d")],
            some (.obj [("hasResBody", .bool true)])⟩,
           store, [.mwPre, .handlerRun, .resValidated, .mwPost])) :=
  ⟨orderedTrace_dispatch, fun _store _uuid => rfl⟩

/-- C4 counterexample: a request carrying the `x-api-key` header with the
empty-string value is rejected with 422, not answered with 200, so the
claim is false for K = "". -/
theorem protected_empty_key_not_200 :
    (dispatch (protectedReq "") ([] : Store) "u").1.status = 422 ∧
      (dispatch (protectedReq "") ([] : Store) "u").1.status ≠ 200 :=
  ⟨rfl, by rw [show (dispatch (protectedReq "") ([] : Store) "u").1.status = 422 from rfl]; decide⟩

/-- C4 (amended): GET /protected without the `x-api-key` header yields
422 with a single issue whose path is `["x-api-key"]`; with a non-empty
`x-api-key: K` it yields 200 with body `{message: "Authenticated with K"}`. -/
theorem protected_header_check :
    (∀ (store : Store) (uuid : String),
      dispatch protectedNoKeyReq store uuid =
        (⟨422, [],
          some (.obj [("error", .str "RequestValidationError"),
                      ("details", .obj [("issues",
                        .arr [.obj [("path", .arr [.str "x-api-key"]),
                                    ("message", .str "Invalid input: expected string, received undefined")]])])])⟩,
         store, []))
    ∧ (∀ (K : String) (store : Store) (uuid : String), 1 ≤ K.length →
        dispatch (protectedReq K) store uuid =
          (⟨200, [], some (.obj [("message", .str ("Authenticated with " ++ K))])⟩,
           store, [.reqValidated, .handlerRun])) := by
  constructor
  · intro store uuid; rfl
  · intro K store uuid hK
    have hchk : Leaf.check (.stringMin 1) (.str K) = .ok (.str K) := by
      simp [Leaf.check, hK]
    have hm : matchRoute appRoutes (protectedReq K) = some (protectedRoute, []) := rfl
    simp only [dispatch, hm]
    simp [runRoute, protectedRoute, hasReqVal, validateReq, partIssues, recordJson,
          Schema.parse, ApiKeyHeaderSchema, parseObj, checkField, hchk, fieldIssues, fieldValue,
          initCtx, protectedReq, runMws, runInner, protectedHandler, getStrField, setRes,
          finishRoute, serializeOk]

/-- C4 witness: the protected route answered with the key of the e2e test. -/
theorem protected_header_check_witness :
    dispatch (protectedReq "test-key-123") ([] : Store) "u" =
      (⟨200, [], some (.obj [("message", .str "Authenticated with test-key-123")])⟩,
       ([] : Store), [.reqValidated, .handlerRun]) :=
  protected_header_check.2 "test-key-123" [] "u" (by decide)

/-- C5 counterexample: with one Furniture product stored, the query
`?category=` (category equal to the empty string) returns that product,
not the empty set of products whose category equals the empty string --
the truthiness guard disables the filter, so "returns exactly the stored
products whose category equals C" fails at C = "". -/
theorem category_empty_not_exact_filter :
    (dispatch (productsReq [("category", "")]) furnitureStore "u").1.body ≠
      some (.arr ((productsFromStore furnitureStore).filter
        (fun p => getStrField p "category" == some ""))) := by
  intro h
  exact absurd
    (congrArg (fun b => match b with | some (Json.arr xs) => xs.length | _ => 0) h)
    (by decide)

/-- C5 (amended): for a NON-EMPTY category C and a well-formed store,
`GET /products?category=C` returns exactly the stored products whose
category equals C; adding numeric minPrice/maxPrice strings further
restricts to prices between `parseFloat minPrice` and `parseFloat
maxPrice`, exactly as the handler's filters state. -/
theorem products_query_filters (C : String) (store : Store) (uuid : String)
    (hC : C ≠ "") (hwf : wfStore store = true) :
    ((dispatch (productsReq [("category", C)]) store uuid).1 =
      ⟨200, [], some (.arr ((productsFromStore store).filter
        (fun p => getStrField p "category" == some C)))⟩)
    ∧ (∀ (mn mx : String) (a b : ℚ), parseFloat mn = some a → parseFloat mx = some b →
        (dispatch (productsReq [("category", C), ("minPrice", mn), ("maxPrice", mx)]) store uuid).1 =
          ⟨200, [], some (.arr ((((productsFromStore store).filter
              (fun p => getStrField p "category" == some C)).filter
              (fun p => cmpGE (getNumField p "price") (some a))).filter
              (fun p => cmpLE (getNumField p "price") (some b))))⟩) := by
  constructor
  · have heq : productsResult (.obj [("category", .str C)]) store =
        (productsFromStore store).filter (fun p => getStrField p "category" == some C) := by
      simp [productsResult, getStrField, List.lookup, bne_iff_ne.mpr hC]
    have hres := parse_list_ok ProductWithIdFields
      (productsResult (.obj [("category", .str C)]) store)
      (by rw [heq]; exact all_of_filter _ hwf)
    have hd := products_dispatch [("category", C)] (.obj [("category", .str C)])
      store uuid _ rfl hres
    rw [hd, heq]
  · intro mn mx a b hmn hmx
    have hmn' : mn ≠ "" := by intro h; rw [h] at hmn; exact Option.noConfusion hmn
    have hmx' : mx ≠ "" := by intro h; rw [h] at hmx; exact Option.noConfusion hmx
    have heq : productsResult
        (.obj [("category", .str C), ("minPrice", .str mn), ("maxPrice", .str mx)]) store =
        (((productsFromStore store).filter (fun p => getStrField p "category" == some C)).filter
            (fun p => cmpGE (getNumField p "price") (some a))).filter
            (fun p => cmpLE (getNumField p "price") (some b)) := by
      simp [productsResult, getStrField, List.lookup, bne_iff_ne.mpr hC,
            bne_iff_ne.mpr hmn', bne_iff_ne.mpr hmx', hmn, hmx]
    have hres := parse_list_ok ProductWithIdFields
      (productsResult (.obj [("category", .str C), ("minPrice", .str mn), ("maxPrice", .str mx)]) store)
      (by rw [heq]; exact all_of_filter _ (all_of_filter _ (all_of_filter _ hwf)))
    have hd := products_dispatch [("category", C), ("minPrice", mn), ("maxPrice", mx)]
      (.obj [("category", .str C), ("minPrice", .str mn), ("maxPrice", .str mx)])
      store uuid _ rfl hres
    rw [hd, heq]

/-- C5 witness: e2e scenario 3 -- after storing 2 Electronics and 1
Furniture items, `?category=Electronics` returns exactly the two
Electronics items, and the price bounds 10..200 keep both. -/
theorem products_query_filters_witness :
    ((dispatch (productsReq [("category", "Electronics")]) electronicsStore "u").1 =
      ⟨200, [], some (.arr [cheapElectronicsJson, expensiveElectronicsJson])⟩)
    ∧ ((dispatch (productsReq [("category", "Electronics"), ("minPrice", "10"), ("maxPrice", "200")])
          electronicsStore "u").1 =
        ⟨200, [], some (.arr [cheapElectronicsJson, expensiveElectronicsJson])⟩) := by
  constructor
  · rw [(products_query_filters "Electronics" electronicsStore "u" (by decide) rfl).1]
    rfl
  · rw [(products_query_filters "Electronics" electronicsStore "u" (by decide) rfl).2
        "10" "200" 10 200 rfl rfl]
    rfl

/-- C6 counterexample: dispatching the same well-formed POST /products
request twice over the same (non-side-effecting) store yields different
responses when the two `randomUUID` draws differ -- the response body
embeds the freshly generated id. -/
theorem post_responses_differ_on_uuid :
    (dispatch (postProductReq goodBody) ([] : Store) "u1").1 ≠
      (dispatch (postProductReq goodBody) ([] : Store) "u2").1 := by
  intro h
  exact absurd (congrArg bodyIdOf h) (by decide)

/-- C6 (amended): dispatching the same well-formed request twice with the
same store produces identical responses for every registered route other
than POST /products (whose response embeds the `randomUUID` draw): for any
non-POST request the dispatch outcome does not depend on the uuid at all. -/
theorem nonpost_dispatch_uuid_independent (req : Request) (store : Store)
    (u u' : String) (hm : req.method ≠ "POST") :
    dispatch req store u = dispatch req store u' :=
  dispatch_uuid_irrel req store u u' hm

/-- C6 witness: a GET dispatch is identical under two different uuid draws. -/
theorem nonpost_dispatch_uuid_independent_witness :
    dispatch (getReq "/product-valid") ([] : Store) "u1" =
      dispatch (getReq "/product-valid") ([] : Store) "u2" :=
  nonpost_dispatch_uuid_independent (getReq "/product-valid") [] "u1" "u2" (by decide)

/-- C7: for GET /products/:id with a valid path parameter, when the
store's get finds no item the dispatched response is 404 with error
`NotFoundError` and the message "Product not found"; when an item is
found (and satisfies the response schema) the response is 200 with the
stored product plus its id. -/
theorem get_product_by_id_cases (id p : String) (store : Store) (uuid : String)
    (hsplit : splitPath p = ["products", id]) :
    (getItem store ("PRODUCTS#" ++ id) "PRODUCTS" = none →
      dispatch (getReq p) store uuid =
        (⟨404, [], some (.obj [("error", .str "NotFoundError"),
                               ("details", .str "Product not found")])⟩,
         store, [.reqValidated, .handlerRun]))
    ∧ (∀ (it : StoredItem) (y : Json),
        getItem store ("PRODUCTS#" ++ id) "PRODUCTS" = some it →
        parseObj ProductWithIdFields (.obj (("id", .str id) :: it.attrs)) = .ok y →
        dispatch (getReq p) store uuid =
          (⟨200, [], some (.obj (("id", .str id) :: it.attrs))⟩,
           store, [.reqValidated, .handlerRun, .resValidated])) := by
  have hm : matchRoute appRoutes (getReq p) = some (productByIdRoute, [("id", id)]) := by
    simp [matchRoute, appRoutes, getReq, hsplit, matchSegs, productsRoute, productByIdRoute]
  constructor
  · intro hfind
    simp only [dispatch, hm]
    simp [runRoute, productByIdRoute, hasReqVal, validateReq, partIssues, recordJson,
          Schema.parse, ProductPathSchema, parseObj, checkField, Leaf.check, fieldIssues,
          fieldValue, initCtx, getReq, runMws, runInner, getProductByIdHandler, getStrField,
          hfind, setRes, finishRoute, serializeOk, translateErr]
  · intro it y hfind hparse
    have hv : validateReq ⟨some ProductPathSchema, none, none, none, some ProductWithIdSchema⟩
        (initCtx (getReq p) [("id", id)]) =
        .ok ⟨getReq p, [("id", id)], 200, [], none, some (.obj [("id", .str id)]),
             none, none, none, none⟩ := rfl
    have hh : getProductByIdHandler
        ⟨getReq p, [("id", id)], 200, [], none, some (.obj [("id", .str id)]),
         none, none, none, none⟩
        store uuid = .ok (.json (.obj (("id", .str id) :: it.attrs)), store) := by
      simp [getProductByIdHandler, getStrField, hfind]
    have hr := runRoute_json_resOk
      ⟨some ProductPathSchema, none, none, none, some ProductWithIdSchema⟩
      getProductByIdHandler "GET" [.lit "products", .param "id"]
      (initCtx (getReq p) [("id", id)])
      ⟨getReq p, [("id", id)], 200, [], none, some (.obj [("id", .str id)]),
       none, none, none, none⟩
      store store uuid (.obj (("id", .str id) :: it.attrs)) y ProductWithIdSchema
      rfl hv hh rfl (by simpa [ProductWithIdSchema, Schema.parse] using hparse)
    simp only [dispatch, hm, productByIdRoute]
    rw [hr]
    simp [finishRoute, serializeOk]

/-- C7 witness: a missing id against the empty store gives the 404
NotFoundError response; the stored item `e1` gives the 200 response
carrying the stored product plus its id. -/
theorem get_product_by_id_cases_witness :
    (dispatch (getReq "/products/zz") ([] : Store) "u" =
      (⟨404, [], some (.obj [("error", .str "NotFoundError"),
                             ("details", .str "Product not found")])⟩,
       ([] : Store), [.reqValidated, .handlerRun]))
    ∧ (dispatch (getReq "/products/e1") electronicsStore "u" =
        (⟨200, [], some cheapElectronicsJson⟩,
         electronicsStore, [.reqValidated, .handlerRun, .resValidated])) :=
  ⟨(get_product_by_id_cases "zz" "/products/zz" [] "u" rfl).1 rfl,
   (get_product_by_id_cases "e1" "/products/e1" electronicsStore "u" rfl).2
     ⟨"PRODUCTS#e1", "PRODUCTS",
      [("name", .str "Cheap Electronics"), ("price", .num 15), ("category", .str "Electronics")]⟩
     (.obj [("name", .str "Cheap Electronics"), ("price", .num 15),
            ("category", .str "Electronics"), ("id", .str "e1")])
     rfl rfl⟩

/-- C8: dispatching DELETE /products/:id for any id and any store returns
the handler's explicitly constructed `Response` unchanged -- status 204
with a null body, not a defaulted 200 with a JSON body -- and, since the
handler performs no existence check, this holds whether or not a product
with that id exists; the delete is issued against the store
unconditionally. -/
theorem delete_product_204 (id p : String) (store : Store) (uuid : String)
    (hsplit : splitPath p = ["products", id]) :
    dispatch (deleteReq p) store uuid =
      (⟨204, [], none⟩, deleteItem store ("PRODUCTS#" ++ id) "PRODUCTS",
       [.reqValidated, .handlerRun]) := by
  have hm : matchRoute appRoutes (deleteReq p) = some (deleteProductRoute, [("id", id)]) := by
    simp [matchRoute, appRoutes, deleteReq, hsplit, matchSegs, productsRoute, productByIdRoute,
          productInvalidRoute, resBodyRoute, productValidRoute, protectedRoute,
          postProductsRoute, deleteProductRoute]
  simp only [dispatch, hm]
  simp [runRoute, deleteProductRoute, hasReqVal, validateReq, partIssues, recordJson,
        Schema.parse, ProductPathSchema, parseObj, checkField, Leaf.check, fieldIssues,
        fieldValue, initCtx, deleteReq, runMws, runInner, deleteProductHandler, getStrField,
        setRes, finishRoute, serializeOk]

/-- C8 witness: deleting an id that does not exist in the store still
answers 204 with a null body. -/
theorem delete_product_204_witness :
    dispatch (deleteReq "/products/nope") electronicsStore "u" =
      (⟨204, [], none⟩, deleteItem electronicsStore "PRODUCTS#nope" "PRODUCTS",
       [.reqValidated, .handlerRun]) :=
  delete_product_204 "nope" "/products/nope" electronicsStore "u" rfl

/-- C9: a non-numeric, non-empty minPrice (or maxPrice) query value
passes request validation (the query schema only asks for optional
strings) and yields a 200 response whose product list is empty: parseFloat
is NaN and every price comparison against NaN is false, filtering every
stored product out. -/
theorem nan_price_filter_empty (s : String) (store : Store) (uuid : String)
    (hs : s ≠ "") (hpf : parseFloat s = none) :
    ((dispatch (productsReq [("minPrice", s)]) store uuid).1 = ⟨200, [], some (.arr [])⟩)
    ∧ ((dispatch (productsReq [("maxPrice", s)]) store uuid).1 = ⟨200, [], some (.arr [])⟩) := by
  constructor
  · have heq : productsResult (.obj [("minPrice", .str s)]) store = [] := by
      simp [productsResult, getStrField, List.lookup, bne_iff_ne.mpr hs, hpf, cmpGE]
    have hres := parse_list_ok ProductWithIdFields
      (productsResult (.obj [("minPrice", .str s)]) store) (by rw [heq]; rfl)
    have hd := products_dispatch [("minPrice", s)] (.obj [("minPrice", .str s)])
      store uuid _ rfl hres
    rw [hd, heq]
  · have heq : productsResult (.obj [("maxPrice", .str s)]) store = [] := by
      simp [productsResult, getStrField, List.lookup, bne_iff_ne.mpr hs, hpf, cmpLE]
    have hres := parse_list_ok ProductWithIdFields
      (productsResult (.obj [("maxPrice", .str s)]) store) (by rw [heq]; rfl)
    have hd := products_dispatch [("maxPrice", s)] (.obj [("maxPrice", .str s)])
      store uuid _ rfl hres
    rw [hd, heq]

/-- C9 witness: `?minPrice=abc` and `?maxPrice=abc` both return 200 with
an empty list over a store holding three products. -/
theorem nan_price_filter_empty_witness :
    ((dispatch (productsReq [("minPrice", "abc")]) electronicsStore "u").1 =
      ⟨200, [], some (.arr [])⟩)
    ∧ ((dispatch (productsReq [("maxPrice", "abc")]) electronicsStore "u").1 =
        ⟨200, [], some (.arr [])⟩) :=
  nan_price_filter_empty "abc" electronicsStore "u" (by decide) rfl

/-- C10: an empty-string query value disables the corresponding filter
instead of filtering by the empty value -- `?category=` (and likewise
empty minPrice or maxPrice) returns all stored products of every
category, because each filter is guarded by a JS truthiness check. -/
theorem empty_query_values_disable_filters (store : Store) (uuid : String)
    (hwf : wfStore store = true) :
    ((dispatch (productsReq [("category", "")]) store uuid).1 =
      ⟨200, [], some (.arr (productsFromStore store))⟩)
    ∧ ((dispatch (productsReq [("minPrice", "")]) store uuid).1 =
        ⟨200, [], some (.arr (productsFromStore store))⟩)
    ∧ ((dispatch (productsReq [("maxPrice", "")]) store uuid).1 =
        ⟨200, [], some (.arr (productsFromStore store))⟩) := by
  refine ⟨?_, ?_, ?_⟩
  · have hres := parse_list_ok ProductWithIdFields
      (productsResult (.obj [("category", .str "")]) store) hwf
    have hd := products_dispatch [("category", "")] (.obj [("category", .str "")])
      store uuid _ rfl hres
    rw [hd]
    rfl
  · have hres := parse_list_ok ProductWithIdFields
      (productsResult (.obj [("minPrice", .str "")]) store) hwf
    have hd := products_dispatch [("minPrice", "")] (.obj [("minPrice", .str "")])
      store uuid _ rfl hres
    rw [hd]
    rfl
  · have hres := parse_list_ok ProductWithIdFields
      (productsResult (.obj [("maxPrice", .str "")]) store) hwf
    have hd := products_dispatch [("maxPrice", "")] (.obj [("maxPrice", .str "")])
      store uuid _ rfl hres
    rw [hd]
    rfl

/-- C10 witness: `?category=` over the two-Electronics-one-Furniture store
returns all three stored products. -/
theorem empty_query_values_disable_filters_witness :
    (dispatch (productsReq [("category", "")]) electronicsStore "u").1 =
      ⟨200, [], some (.arr (productsFromStore electronicsStore))⟩ :=
  (empty_query_values_disable_filters electronicsStore "u" rfl).1

end PowertoolsSample
